import Mathlib

/-!
Shallow embedding of the TraceCycle ledger core and its event-ingestion
bridge, together with proofs checking the specification's claims against it.

The embedded code:
* `src/blockchain/contracts/WasteTrace.sol` — the `WasteTrace` contract
  (`createWaste`, `updateStatus`, `transferWaste`, `getWaste`, the `wastes`
  mapping, the `count` counter and the three events);
* `src/frontend/src/context/Web3Context.jsx` — the frontend write wrapper
  `createWaste` guarding on the bound contract handle;
* the Dashboard component (WebSocket `onmessage` handler plus
  `handleAutoCreateWaste`) — the auto-write bridge turning detection events
  into ledger create calls.

Modeling conventions:
* `uint256` is `Nat`; Solidity ^0.8 checked arithmetic does not wrap, so the
  only overflow-relevant spot, `count++`, is embedded as an explicit guard
  `count < UINT256_MAX` whose failure is the arithmetic panic (revert).
* `address` is `Nat`, with `0` the zero address. The EVM never executes a
  call whose `msg.sender` is the zero address; trace-level theorems carry
  that as the `SendersOk` hypothesis.
* A Solidity `mapping(uint256 => Waste)` is a total function `Nat → Waste`
  returning the all-zero struct on never-written keys.
* A reverting call is `Except.error`: state is rolled back (no new state is
  produced) and no events are emitted.
-/

namespace WasteTrace

/-- Largest `uint256` value, `2^256 - 1`. -/
def UINT256_MAX : Nat := 2 ^ 256 - 1

/-- The `Waste` struct of `WasteTrace.sol`:
`{ uint256 id; string wasteType; string status; address owner; uint256 timestamp; }`. -/
structure Waste where
  id : Nat
  wasteType : String
  status : String
  owner : Nat
  timestamp : Nat
  deriving Repr, DecidableEq

/-- The all-zero `Waste` struct, what `wastes[k]` reads as for a key `k`
that was never written. -/
def zeroWaste : Waste := ⟨0, "", "", 0, 0⟩

/-- Contract storage: the `wastes` mapping and the `count` counter. -/
structure WTState where
  wastes : Nat → Waste
  count : Nat

/-- Storage of a freshly deployed contract: every mapping slot reads zero
and `count = 0`. -/
def genesis : WTState := ⟨fun _ => zeroWaste, 0⟩

/-- Revert reasons of the contract: `"Waste not found"`, `"Not owner"`, and
the checked-arithmetic panic on `count++`. -/
inductive Err where
  | notFound
  | notOwner
  | overflow
  deriving Repr, DecidableEq

/-- The contract's events: `WasteCreated(uint256 id, address owner)`,
`StatusUpdated(uint256 id, string status)`,
`WasteTransferred(uint256 id, address from, address to)`. -/
inductive Event where
  | wasteCreated (id : Nat) (owner : Nat)
  | statusUpdated (id : Nat) (status : String)
  | wasteTransferred (id : Nat) (fromAddr : Nat) (toAddr : Nat)
  deriving Repr, DecidableEq

/-- Embedding of `createWaste(string memory _type)`: `count++`, store
`Waste(count, _type, "Generated", msg.sender, block.timestamp)` at key
`count`, emit `WasteCreated(count, msg.sender)`. `sender` is `msg.sender`
and `now` is `block.timestamp`. -/
def createWaste (s : WTState) (ty : String) (sender : Nat) (now : Nat) :
    Except Err (WTState × Event) :=
  if s.count < UINT256_MAX then
    let c := s.count + 1
    Except.ok
      (⟨fun i => if i = c then ⟨c, ty, "Generated", sender, now⟩ else s.wastes i, c⟩,
       Event.wasteCreated c sender)
  else
    Except.error Err.overflow

/-- Embedding of `updateStatus(uint256 _id, string memory _status)`:
`require(wastes[_id].id != 0, "Waste not found")`, then
`require(wastes[_id].owner == msg.sender, "Not owner")`, then overwrite
`wastes[_id].status` and emit `StatusUpdated(_id, _status)`. -/
def updateStatus (s : WTState) (id : Nat) (st : String) (sender : Nat) :
    Except Err (WTState × Event) :=
  if (s.wastes id).id = 0 then
    Except.error Err.notFound
  else if (s.wastes id).owner = sender then
    Except.ok
      (⟨fun i => if i = id then { s.wastes id with status := st } else s.wastes i, s.count⟩,
       Event.statusUpdated id st)
  else
    Except.error Err.notOwner

/-- Embedding of `transferWaste(uint256 _id, address _to)`: only
`require(wastes[_id].owner == msg.sender, "Not owner")` — there is no
existence check — then overwrite `wastes[_id].owner` and emit
`WasteTransferred(_id, msg.sender, _to)`. -/
def transferWaste (s : WTState) (id : Nat) (toAddr : Nat) (sender : Nat) :
    Except Err (WTState × Event) :=
  if (s.wastes id).owner = sender then
    Except.ok
      (⟨fun i => if i = id then { s.wastes id with owner := toAddr } else s.wastes i, s.count⟩,
       Event.wasteTransferred id sender toAddr)
  else
    Except.error Err.notOwner

/-- Embedding of `getWaste(uint256 _id)`: returns `wastes[_id]` (the all-zero struct when
no record exists). -/
def getWaste (s : WTState) (id : Nat) : Waste := s.wastes id

/-- One external call to the contract, with its `msg.sender` (and, for
`createWaste`, the `block.timestamp` it executes under). -/
inductive Op where
  | create (ty : String) (sender : Nat) (now : Nat)
  | update (id : Nat) (st : String) (sender : Nat)
  | transfer (id : Nat) (toAddr : Nat) (sender : Nat)
  deriving Repr, DecidableEq

/-- The `msg.sender` of a call. -/
def Op.sender : Op → Nat
  | .create _ a _ => a
  | .update _ _ a => a
  | .transfer _ _ a => a

/-- Dispatch one call to the contract function it names. -/
def step (s : WTState) : Op → Except Err (WTState × Event)
  | .create ty sender now => createWaste s ty sender now
  | .update id st sender => updateStatus s id st sender
  | .transfer id toAddr sender => transferWaste s id toAddr sender

/-- Execute one transaction: a successful call commits its new storage and
its single event; a reverting call leaves storage unchanged and emits
nothing. -/
def applyOp (s : WTState) (op : Op) : WTState × List Event :=
  match step s op with
  | .ok (s', e) => (s', [e])
  | .error _ => (s, [])

/-- Execute a sequence of transactions in order, concatenating the emitted
event logs. -/
def run (s : WTState) : List Op → WTState × List Event
  | [] => (s, [])
  | op :: ops =>
    let (s1, es1) := applyOp s op
    let (s2, es2) := run s1 ops
    (s2, es1 ++ es2)

/-- The storage reached by running `ops` from a fresh deployment. -/
def reach (ops : List Op) : WTState := (run genesis ops).1

/-- Every call in the trace has a nonzero `msg.sender` — a fact of the EVM
(no transaction or call ever originates from the zero address). -/
def SendersOk (ops : List Op) : Prop := ∀ op ∈ ops, op.sender ≠ 0

instance : DecidablePred SendersOk := fun ops =>
  inferInstanceAs (Decidable (∀ op ∈ ops, op.sender ≠ 0))

/-- Storage invariant of the contract: every key in `1..count` holds a
record whose `id` field equals the key, and every key outside `1..count`
(including key `0`) still reads as the all-zero struct. -/
def Inv (s : WTState) : Prop :=
  (∀ i, 1 ≤ i → i ≤ s.count → (s.wastes i).id = i) ∧
  (∀ i, i = 0 ∨ s.count < i → s.wastes i = zeroWaste)

/-- Is the call a `createWaste` call? -/
def Op.isCreate : Op → Bool
  | .create _ _ _ => true
  | _ => false

/-- The ids assigned by the `WasteCreated` events of a log, in emission
order. -/
def createdIds (events : List Event) : List Nat :=
  events.filterMap fun e =>
    match e with
    | .wasteCreated i _ => some i
    | _ => none

end WasteTrace

namespace Frontend

/-- Outcome of one call to the frontend write wrapper of
`Web3Context.jsx`: the list of contract calls it issued (the `wasteType`
argument of each) and whether it raised (re-threw) an error. -/
structure Outcome where
  storeCalls : List String
  threwError : Bool
  deriving Repr, DecidableEq

/-- Embedding of `createWaste(wasteType)` of `Web3Context.jsx`:
`if (!contract) return;` — when no contract handle is bound (no connected
identity) it returns `undefined` without throwing and without touching the
store; otherwise it sends `contract.createWaste(wasteType)` (re-throwing a
chain-level error, which we take not to occur here since the claim is
about the guard, not the transport). `contract` is `none` when the handle
is null. -/
def web3CreateWaste (contract : Option Unit) (wasteType : String) : Outcome :=
  match contract with
  | none => ⟨[], false⟩
  | some _ => ⟨[wasteType], false⟩

/-- A `DetectionEvent` as received by the Dashboard WebSocket handler:
`event_type` tag and optional `class_name` (absent or empty both read as
falsy in the JS guard `e.class_name || "Unknown Waste"`). -/
structure DetectionEvent where
  event_type : String
  class_name : Option String
  deriving Repr, DecidableEq

/-- The event filter of the Dashboard `ws.onmessage` handler:
`e.event_type === 'waste_detected' || e.event_type === 'waste_classified'`. -/
def recognizedEvent (e : DetectionEvent) : Bool :=
  e.event_type = "waste_detected" || e.event_type = "waste_classified"

/-- Embedding of `const wasteType = e.class_name || "Unknown Waste"` — JS string
truthiness: `null`, `undefined` and `""` all fall back. -/
def wasteTypeOf (cn : Option String) : String :=
  match cn with
  | some c => if c = "" then "Unknown Waste" else c
  | none => "Unknown Waste"

/-- Embedding of `handleAutoCreateWaste(wasteType)` of the Dashboard:
`if (!currentAccount) return;` then `createWaste(wasteType)`. The bound
account is the JS string `currentAccount`, falsy exactly when `""`.
Returns the list of ledger create calls issued (their `wasteType`s). -/
def handleAutoCreateWaste (currentAccount : String) (wasteType : String) :
    List String :=
  if currentAccount = "" then [] else [wasteType]

/-- The auto-write branch of `ws.onmessage` over one batch of events:
`if (autoLog) { newEvents.forEach(e => { if (recognized) ⟨derive type,
handleAutoCreateWaste⟩ }) }`; with `autoLog` off nothing happens. Returns
the create calls issued, in event order. -/
def onDetectionEvents (autoLog : Bool) (currentAccount : String)
    (events : List DetectionEvent) : List String :=
  if autoLog then
    (events.map fun e =>
      if recognizedEvent e then
        handleAutoCreateWaste currentAccount (wasteTypeOf e.class_name)
      else []).flatten
  else []

end Frontend

section Sanity

open WasteTrace

example : getWaste genesis 0 = zeroWaste := rfl

example : transferWaste genesis 1 2 3 = Except.error Err.notOwner := rfl

example : updateStatus genesis 1 "x" 3 = Except.error Err.notFound := rfl

example :
    getWaste (reach [Op.create "Plastic" 1 100]) 1 =
      ⟨1, "Plastic", "Generated", 1, 100⟩ := by
  decide

example :
    (run genesis [Op.create "A" 1 5, Op.create "B" 2 6]).2 =
      [Event.wasteCreated 1 1, Event.wasteCreated 2 2] := by
  decide

example : Frontend.web3CreateWaste none "Plastic" = ⟨[], false⟩ := rfl

example :
    (WasteTrace.transferWaste (WasteTrace.reach [WasteTrace.Op.create "P" 1 9]) 1 2 1).isOk =
      true := by decide

example :
    Frontend.onDetectionEvents true "0xabc"
      [⟨"waste_detected", some "Bottle"⟩, ⟨"frame", some "x"⟩,
       ⟨"waste_classified", none⟩] =
      ["Bottle", "Unknown Waste"] := by
  decide

example :
    Frontend.onDetectionEvents true ""
      [⟨"waste_detected", some "Bottle"⟩] = [] := by
  decide

end Sanity

namespace WasteTrace

lemma inv_genesis : Inv genesis := by
  constructor
  · intro i h1 h2
    simp [genesis] at h2
    omega
  · intro i _
    rfl

lemma inv_applyOp (s : WTState) (op : Op) (hinv : Inv s) (hs : op.sender ≠ 0) :
    Inv (applyOp s op).1 ∧ s.count ≤ (applyOp s op).1.count := by
  obtain ⟨h1, h2⟩ := hinv
  cases op with
  | create ty sender now =>
    by_cases hc : s.count < UINT256_MAX
    · simp only [applyOp, step, createWaste, if_pos hc, Inv]
      refine ⟨⟨?_, ?_⟩, by omega⟩
      · intro i hi1 hi2
        by_cases hie : i = s.count + 1
        · simp [hie]
        · simp only [hie, if_false]
          exact h1 i hi1 (by omega)
      · intro i hi
        have hie : i ≠ s.count + 1 := by omega
        simp only [hie, if_false]
        exact h2 i (by omega)
    · simp only [applyOp, step, createWaste, if_neg hc]
      exact ⟨⟨h1, h2⟩, le_refl _⟩
  | update id st sender =>
    by_cases hz : (s.wastes id).id = 0
    · simp only [applyOp, step, updateStatus, if_pos hz]
      exact ⟨⟨h1, h2⟩, le_refl _⟩
    · by_cases ho : (s.wastes id).owner = sender
      · have hid : 1 ≤ id ∧ id ≤ s.count := by
          by_contra hcon
          have : id = 0 ∨ s.count < id := by omega
          have := h2 id this
          rw [this] at hz
          exact hz rfl
        simp only [applyOp, step, updateStatus, if_neg hz, if_pos ho, Inv]
        refine ⟨⟨?_, ?_⟩, le_refl _⟩
        · intro i hi1 hi2
          by_cases hie : i = id
          · subst hie
            simp only [if_pos rfl]
            exact h1 i hi1 hi2
          · simp only [hie, if_false]
            exact h1 i hi1 hi2
        · intro i hi
          have hie : i ≠ id := by omega
          simp only [hie, if_false]
          exact h2 i hi
      · simp only [applyOp, step, updateStatus, if_neg hz, if_neg ho]
        exact ⟨⟨h1, h2⟩, le_refl _⟩
  | transfer id toAddr sender =>
    by_cases ho : (s.wastes id).owner = sender
    · have hid : 1 ≤ id ∧ id ≤ s.count := by
        by_contra hcon
        have hout : id = 0 ∨ s.count < id := by omega
        have hzw := h2 id hout
        rw [hzw] at ho
        exact hs (Op.sender.eq_3 id toAddr sender ▸ ho.symm)
      simp only [applyOp, step, transferWaste, if_pos ho, Inv]
      refine ⟨⟨?_, ?_⟩, le_refl _⟩
      · intro i hi1 hi2
        by_cases hie : i = id
        · subst hie
          simp only [if_pos rfl]
          exact h1 i hi1 hi2
        · simp only [hie, if_false]
          exact h1 i hi1 hi2
      · intro i hi
        have hie : i ≠ id := by omega
        simp only [hie, if_false]
        exact h2 i hi
    · simp only [applyOp, step, transferWaste, if_neg ho]
      exact ⟨⟨h1, h2⟩, le_refl _⟩

lemma inv_run (ops : List Op) : ∀ (s : WTState), Inv s →
    (∀ op ∈ ops, op.sender ≠ 0) →
    Inv (run s ops).1 ∧ s.count ≤ (run s ops).1.count := by
  induction ops with
  | nil => intro s hinv _; exact ⟨hinv, le_refl _⟩
  | cons op ops ih =>
    intro s hinv hs
    have hstep := inv_applyOp s op hinv (hs op (List.mem_cons_self op ops))
    have htail := ih (applyOp s op).1 hstep.1
      (fun o ho => hs o (List.mem_cons_of_mem op ho))
    simp only [run]
    exact ⟨htail.1, le_trans hstep.2 htail.2⟩

lemma inv_reach (ops : List Op) (hs : SendersOk ops) : Inv (reach ops) :=
  (inv_run ops genesis inv_genesis hs).1

lemma run_creates (ops : List Op) : ∀ (s : WTState),
    (∀ op ∈ ops, op.isCreate = true) →
    s.count + ops.length ≤ UINT256_MAX →
    (run s ops).1.count = s.count + ops.length ∧
    createdIds (run s ops).2 = List.range' (s.count + 1) ops.length ∧
    (run s ops).2.length = ops.length := by
  induction ops with
  | nil => intro s _ _; simp [run, createdIds]
  | cons op ops ih =>
    intro s hc hn
    obtain ⟨ty, a, t, rfl⟩ : ∃ ty a t, op = Op.create ty a t := by
      have := hc op (List.mem_cons_self op ops)
      cases op with
      | create ty a t => exact ⟨ty, a, t, rfl⟩
      | update _ _ _ => simp [Op.isCreate] at this
      | transfer _ _ _ => simp [Op.isCreate] at this
    have hlt : s.count < UINT256_MAX := by
      simp only [List.length_cons] at hn; omega
    have happ : applyOp s (Op.create ty a t) =
        (⟨fun i => if i = s.count + 1 then
            ⟨s.count + 1, ty, "Generated", a, t⟩ else s.wastes i, s.count + 1⟩,
         [Event.wasteCreated (s.count + 1) a]) := by
      simp [applyOp, step, createWaste, if_pos hlt]
    have ih' := ih (applyOp s (Op.create ty a t)).1
      (fun o ho => hc o (List.mem_cons_of_mem _ ho))
      (by rw [happ]; simp only [List.length_cons] at hn ⊢; omega)
    simp only [run, happ] at ih' ⊢
    refine ⟨by simp only [ih'.1, List.length_cons]; omega, ?_, by simp [ih'.2.2]⟩
    simp only [createdIds, List.filterMap_append, List.length_cons]
    rw [List.range'_succ]
    have : createdIds [Event.wasteCreated (s.count + 1) a] = [s.count + 1] := rfl
    simp only [createdIds] at this
    rw [this]
    have h2 := ih'.2.1
    simp only [createdIds] at h2
    rw [h2]
    simp

lemma createWaste_ok (s : WTState) (ty : String) (sender now : Nat)
    (s' : WTState) (e : Event)
    (h : createWaste s ty sender now = Except.ok (s', e)) :
    s.count < UINT256_MAX ∧
    s' = ⟨fun i => if i = s.count + 1 then
        ⟨s.count + 1, ty, "Generated", sender, now⟩ else s.wastes i, s.count + 1⟩ ∧
    e = Event.wasteCreated (s.count + 1) sender := by
  unfold createWaste at h
  by_cases hc : s.count < UINT256_MAX
  · rw [if_pos hc] at h
    have hp := Except.ok.inj h
    exact ⟨hc, (congrArg Prod.fst hp).symm, (congrArg Prod.snd hp).symm⟩
  · rw [if_neg hc] at h
    exact Except.noConfusion h

lemma updateStatus_ok (s : WTState) (id : Nat) (st : String) (sender : Nat)
    (s' : WTState) (e : Event)
    (h : updateStatus s id st sender = Except.ok (s', e)) :
    (s.wastes id).id ≠ 0 ∧ (s.wastes id).owner = sender ∧
    s' = ⟨fun i => if i = id then
        { s.wastes id with status := st } else s.wastes i, s.count⟩ ∧
    e = Event.statusUpdated id st := by
  unfold updateStatus at h
  by_cases hz : (s.wastes id).id = 0
  · rw [if_pos hz] at h
    exact Except.noConfusion h
  · rw [if_neg hz] at h
    by_cases ho : (s.wastes id).owner = sender
    · rw [if_pos ho] at h
      have hp := Except.ok.inj h
      exact ⟨hz, ho, (congrArg Prod.fst hp).symm, (congrArg Prod.snd hp).symm⟩
    · rw [if_neg ho] at h
      exact Except.noConfusion h

lemma transferWaste_ok (s : WTState) (id toAddr sender : Nat)
    (s' : WTState) (e : Event)
    (h : transferWaste s id toAddr sender = Except.ok (s', e)) :
    (s.wastes id).owner = sender ∧
    s' = ⟨fun i => if i = id then
        { s.wastes id with owner := toAddr } else s.wastes i, s.count⟩ ∧
    e = Event.wasteTransferred id sender toAddr := by
  unfold transferWaste at h
  by_cases ho : (s.wastes id).owner = sender
  · rw [if_pos ho] at h
    have hp := Except.ok.inj h
    exact ⟨ho, (congrArg Prod.fst hp).symm, (congrArg Prod.snd hp).symm⟩
  · rw [if_neg ho] at h
    exact Except.noConfusion h

lemma fields_applyOp (s : WTState) (op : Op) (i : Nat) (hi : i ≤ s.count) :
    ((applyOp s op).1.wastes i).id = (s.wastes i).id ∧
    ((applyOp s op).1.wastes i).wasteType = (s.wastes i).wasteType ∧
    ((applyOp s op).1.wastes i).timestamp = (s.wastes i).timestamp ∧
    s.count ≤ (applyOp s op).1.count := by
  cases op with
  | create ty sender now =>
    by_cases hc : s.count < UINT256_MAX
    · have hie : i ≠ s.count + 1 := by omega
      simp [applyOp, step, createWaste, if_pos hc, hie]
    · simp [applyOp, step, createWaste, if_neg hc]
  | update id st sender =>
    by_cases hz : (s.wastes id).id = 0
    · simp [applyOp, step, updateStatus, if_pos hz]
    · by_cases ho : (s.wastes id).owner = sender
      · simp only [applyOp, step, updateStatus, if_neg hz, if_pos ho]
        by_cases hie : i = id
        · subst hie; simp
        · simp [hie]
      · simp [applyOp, step, updateStatus, if_neg hz, if_neg ho]
  | transfer id toAddr sender =>
    by_cases ho : (s.wastes id).owner = sender
    · simp only [applyOp, step, transferWaste, if_pos ho]
      by_cases hie : i = id
      · subst hie; simp
      · simp [hie]
    · simp [applyOp, step, transferWaste, if_neg ho]

lemma fields_run (ops : List Op) : ∀ (s : WTState) (i : Nat), i ≤ s.count →
    ((run s ops).1.wastes i).id = (s.wastes i).id ∧
    ((run s ops).1.wastes i).wasteType = (s.wastes i).wasteType ∧
    ((run s ops).1.wastes i).timestamp = (s.wastes i).timestamp ∧
    s.count ≤ (run s ops).1.count := by
  induction ops with
  | nil => intro s i hi; simp [run]
  | cons op ops ih =>
    intro s i hi
    obtain ⟨h1, h2, h3, h4⟩ := fields_applyOp s op i hi
    obtain ⟨g1, g2, g3, g4⟩ := ih (applyOp s op).1 i (le_trans hi h4)
    simp only [run]
    exact ⟨g1.trans h1, g2.trans h2, g3.trans h3, le_trans h4 g4⟩

/-- Claim C1, counterexample. In the freshly deployed store no record exists
for id 1 (`getWaste` reads the all-zero struct), yet
`transferWaste 1` (the spec's `setOwner`) from caller 3 reverts with
`"Not owner"` (`Unauthorized`), not `"Waste not found"` (`NotFound`): the
claim that `setOwner` fails `NotFound` on absent records, under the same
not-found rule as `setStatus`, is false — `transferWaste` has no
existence check. -/
theorem c1_setOwner_missing_notFound_cex :
    getWaste genesis 1 = zeroWaste ∧
    transferWaste genesis 1 2 3 ≠ Except.error Err.notFound ∧
    transferWaste genesis 1 2 3 = Except.error Err.notOwner := by
  refine ⟨rfl, ?_, rfl⟩
  intro h
  injection h with h2
  exact absurd h2 (by decide)

/-- Claim C1, amended. For a record-less id (including id 0), `updateStatus`
(the spec's `setStatus`) fails `NotFound`; `transferWaste` (`setOwner`)
instead has no existence check: the missing record's owner slot reads as
the zero address, so every nonzero caller gets `Unauthorized`
(`"Not owner"`), never `NotFound`. In either failure case the store is
unchanged and no event is emitted. -/
theorem c1_missing_record_failures (s : WTState) (id : Nat) :
    (∀ st sender, (s.wastes id).id = 0 →
      updateStatus s id st sender = Except.error Err.notFound ∧
      applyOp s (Op.update id st sender) = (s, [])) ∧
    (∀ toAddr sender, s.wastes id = zeroWaste → sender ≠ 0 →
      transferWaste s id toAddr sender = Except.error Err.notOwner ∧
      applyOp s (Op.transfer id toAddr sender) = (s, [])) := by
  constructor
  · intro st sender hz
    have h1 : updateStatus s id st sender = Except.error Err.notFound := by
      unfold updateStatus
      rw [if_pos hz]
    exact ⟨h1, by simp [applyOp, step, h1]⟩
  · intro toAddr sender hzw hs
    have ho : ¬ ((s.wastes id).owner = sender) := by
      rw [hzw]
      simp only [zeroWaste]
      omega
    have h1 : transferWaste s id toAddr sender = Except.error Err.notOwner := by
      unfold transferWaste
      rw [if_neg ho]
    exact ⟨h1, by simp [applyOp, step, h1]⟩

/-- Claim C1, witness for the amended theorem, at the fresh store and id 0. -/
theorem c1_missing_record_failures_witness :
    updateStatus genesis 0 "Collected" 7 = Except.error Err.notFound ∧
    applyOp genesis (Op.update 0 "Collected" 7) = (genesis, []) :=
  (c1_missing_record_failures genesis 0).1 "Collected" 7 (by decide)

/-- Claim C2. For an existing record, any caller other than the current owner
gets `Unauthorized` (`"Not owner"`) from both `updateStatus` (`setStatus`)
and `transferWaste` (`setOwner`), with the store and the log unchanged;
and after a successful `transferWaste id B A`, a subsequent
`updateStatus id st A` by the previous owner `A ≠ B` is `Unauthorized`:
authorization is re-evaluated against the new owner `B`. -/
theorem c2_nonowner_unauthorized (s : WTState) (id : Nat) :
    (∀ st sender, (s.wastes id).id ≠ 0 → sender ≠ (s.wastes id).owner →
      updateStatus s id st sender = Except.error Err.notOwner ∧
      applyOp s (Op.update id st sender) = (s, [])) ∧
    (∀ toAddr sender, sender ≠ (s.wastes id).owner →
      transferWaste s id toAddr sender = Except.error Err.notOwner ∧
      applyOp s (Op.transfer id toAddr sender) = (s, [])) ∧
    (∀ A B st s' e, (s.wastes id).id ≠ 0 → A ≠ B →
      transferWaste s id B A = Except.ok (s', e) →
      updateStatus s' id st A = Except.error Err.notOwner) := by
  refine ⟨?_, ?_, ?_⟩
  · intro st sender hz hso
    have ho : ¬ ((s.wastes id).owner = sender) := fun h => hso h.symm
    have h1 : updateStatus s id st sender = Except.error Err.notOwner := by
      unfold updateStatus
      rw [if_neg hz, if_neg ho]
    exact ⟨h1, by simp [applyOp, step, h1]⟩
  · intro toAddr sender hso
    have ho : ¬ ((s.wastes id).owner = sender) := fun h => hso h.symm
    have h1 : transferWaste s id toAddr sender = Except.error Err.notOwner := by
      unfold transferWaste
      rw [if_neg ho]
    exact ⟨h1, by simp [applyOp, step, h1]⟩
  · intro A B st s' e hz hab htr
    obtain ⟨ho, hs', he⟩ := transferWaste_ok s id B A s' e htr
    have hz' : ¬ ((s'.wastes id).id = 0) := by
      rw [hs']
      simpa using hz
    have ho' : ¬ ((s'.wastes id).owner = A) := by
      rw [hs']
      simpa using fun h => hab h.symm
    unfold updateStatus
    rw [if_neg hz', if_neg ho']

/-- Claim C2, witness: after creating record 1 owned by address 1, a status
update by address 2 is rejected with `"Not owner"` and changes nothing. -/
theorem c2_nonowner_unauthorized_witness :
    updateStatus (reach [Op.create "E-Waste" 1 5]) 1 "Collected" 2 =
      Except.error Err.notOwner ∧
    applyOp (reach [Op.create "E-Waste" 1 5]) (Op.update 1 "Collected" 2) =
      (reach [Op.create "E-Waste" 1 5], []) :=
  (c2_nonowner_unauthorized (reach [Op.create "E-Waste" 1 5]) 1).1
    "Collected" 2 (by decide) (by decide)

/-- Claim C3. From the fresh store, a sequence of `createWaste` calls (all of
which succeed; the only failure mode is exhaustion of the `uint256`
counter, excluded by `n ≤ UINT256_MAX`) assigns exactly the ids
`1, 2, ..., n` in submission order — strictly increasing, no gaps, no
reuse — and the counter ends at `n`: incremented exactly once per
successful creation, with one `WasteCreated` event each. -/
theorem c3_create_ids_sequential (ops : List Op)
    (hc : ∀ op ∈ ops, op.isCreate = true)
    (hn : ops.length ≤ UINT256_MAX) :
    (run genesis ops).1.count = ops.length ∧
    createdIds (run genesis ops).2 = List.range' 1 ops.length ∧
    (run genesis ops).2.length = ops.length := by
  have h := run_creates ops genesis hc (by simpa [genesis] using hn)
  simpa [genesis] using h

/-- Claim C3, witness: three creations from the fresh store get ids
`[1, 2, 3]` and leave the counter at 3. -/
theorem c3_create_ids_sequential_witness :
    (run genesis [Op.create "Plastic" 1 10, Op.create "Paper" 2 11,
        Op.create "Glass" 1 12]).1.count = 3 ∧
    createdIds (run genesis [Op.create "Plastic" 1 10, Op.create "Paper" 2 11,
        Op.create "Glass" 1 12]).2 = List.range' 1 3 ∧
    (run genesis [Op.create "Plastic" 1 10, Op.create "Paper" 2 11,
        Op.create "Glass" 1 12]).2.length = 3 :=
  c3_create_ids_sequential
    [Op.create "Plastic" 1 10, Op.create "Paper" 2 11, Op.create "Glass" 1 12]
    (by decide) (by decide)

/-- Claim C4. A successful `createWaste` allocates the next id `count + 1`
and stores there a record with exactly that id, the given `wasteType`,
`status = "Generated"`, `owner` = the caller, and `timestamp` = the
creation time; in particular, from the fresh store, `createWaste("Plastic")`
followed by `getWaste(1)` returns an id-1 record with
`wasteType = "Plastic"` and `status = "Generated"`. -/
theorem c4_create_stores_generated (s : WTState) (ty : String)
    (sender now : Nat) (s' : WTState) (e : Event)
    (h : createWaste s ty sender now = Except.ok (s', e)) :
    s'.count = s.count + 1 ∧
    getWaste s' (s.count + 1) = ⟨s.count + 1, ty, "Generated", sender, now⟩ ∧
    (∀ a t, getWaste (reach [Op.create "Plastic" a t]) 1 =
      ⟨1, "Plastic", "Generated", a, t⟩) := by
  obtain ⟨hc, hs', he⟩ := createWaste_ok s ty sender now s' e h
  subst hs'
  refine ⟨rfl, by simp [getWaste], ?_⟩
  intro a t
  rfl

/-- Claim C4, witness: the scenario instance, with the hypothesis discharged
at the fresh store. -/
theorem c4_create_stores_generated_witness :
    getWaste (reach [Op.create "Plastic" 1 100]) 1 =
      ⟨1, "Plastic", "Generated", 1, 100⟩ :=
  (c4_create_stores_generated genesis "Plastic" 1 100
    (reach [Op.create "Plastic" 1 100]) (Event.wasteCreated 1 1) rfl).2.2 1 100

/-- Claim C5. In every state reachable by contract calls (with EVM-valid
nonzero senders): `getWaste 0` is the all-zero struct, `getWaste id` for
every never-created id (`id > count`) is the all-zero struct, and a record
whose `id` field is 0 never exists — the id-0 sentinel test holds exactly
for key 0 and the never-created keys. -/
theorem c5_get_missing_notFound (ops : List Op) (hs : SendersOk ops) :
    getWaste (reach ops) 0 = zeroWaste ∧
    (∀ id, (reach ops).count < id → getWaste (reach ops) id = zeroWaste) ∧
    (∀ id, (getWaste (reach ops) id).id = 0 ↔
      id = 0 ∨ (reach ops).count < id) := by
  obtain ⟨h1, h2⟩ := inv_reach ops hs
  simp only [getWaste]
  refine ⟨h2 0 (Or.inl rfl), fun id hid => h2 id (Or.inr hid), fun id => ?_⟩
  constructor
  · intro hz
    by_contra hcon
    have hin : 1 ≤ id ∧ id ≤ (reach ops).count := by omega
    rw [h1 id hin.1 hin.2] at hz
    omega
  · intro hor
    rw [h2 id hor]
    rfl

/-- Claim C5, witness: after a create and a transfer, `getWaste 0` still
reads the all-zero struct. -/
theorem c5_get_missing_notFound_witness :
    getWaste (reach [Op.create "Plastic" 1 100, Op.transfer 1 2 1]) 0 =
      zeroWaste :=
  (c5_get_missing_notFound [Op.create "Plastic" 1 100, Op.transfer 1 2 1]
    (by decide)).1

/-- Claim C8. Each successful mutation emits exactly one event carrying that
mutation's record id and payload — `WasteCreated(count+1, owner)`,
`StatusUpdated(id, status)`, `WasteTransferred(id, from, to)`; a reverted
call emits nothing and leaves the store unchanged; and a run concatenates
the per-transaction logs in the order the mutations were accepted. -/
theorem c8_one_event_per_success :
    (∀ s ty sender now s' e, createWaste s ty sender now = Except.ok (s', e) →
      e = Event.wasteCreated (s.count + 1) sender ∧
      applyOp s (Op.create ty sender now) = (s', [e])) ∧
    (∀ s id st sender s' e, updateStatus s id st sender = Except.ok (s', e) →
      e = Event.statusUpdated id st ∧
      applyOp s (Op.update id st sender) = (s', [e])) ∧
    (∀ s id toAddr sender s' e,
      transferWaste s id toAddr sender = Except.ok (s', e) →
      e = Event.wasteTransferred id sender toAddr ∧
      applyOp s (Op.transfer id toAddr sender) = (s', [e])) ∧
    (∀ s op err, step s op = Except.error err → applyOp s op = (s, [])) ∧
    (∀ s op ops, run s (op :: ops) =
      ((run (applyOp s op).1 ops).1,
        (applyOp s op).2 ++ (run (applyOp s op).1 ops).2)) := by
  refine ⟨?_, ?_, ?_, ?_, ?_⟩
  · intro s ty sender now s' e h
    exact ⟨(createWaste_ok s ty sender now s' e h).2.2,
      by simp [applyOp, step, h]⟩
  · intro s id st sender s' e h
    exact ⟨(updateStatus_ok s id st sender s' e h).2.2.2,
      by simp [applyOp, step, h]⟩
  · intro s id toAddr sender s' e h
    exact ⟨(transferWaste_ok s id toAddr sender s' e h).2.2,
      by simp [applyOp, step, h]⟩
  · intro s op err h
    simp [applyOp, h]
  · intro s op ops
    rfl

/-- Claim C8, witness: the reverting-call conjunct at a concrete failed
update (no record 1 in the fresh store): no event, store unchanged. -/
theorem c8_one_event_per_success_witness :
    applyOp genesis (Op.update 1 "Collected" 2) = (genesis, []) :=
  c8_one_event_per_success.2.2.2.1 genesis (Op.update 1 "Collected" 2)
    Err.notFound rfl

/-- Claim C9. Here `updateStatus` changes only the `status` field of the targeted
record, `transferWaste` only its `owner` field; neither touches the
counter or any other key; `createWaste` writes only the fresh key
`count + 1`; and across any run of calls the `id`, `wasteType` and
`timestamp` fields of an already-existing record never change (and the
counter never decreases). -/
theorem c9_frame_conditions :
    (∀ s id st sender s' e, updateStatus s id st sender = Except.ok (s', e) →
      s'.count = s.count ∧
      (∀ j, j ≠ id → s'.wastes j = s.wastes j) ∧
      s'.wastes id = { s.wastes id with status := st }) ∧
    (∀ s id toAddr sender s' e,
      transferWaste s id toAddr sender = Except.ok (s', e) →
      s'.count = s.count ∧
      (∀ j, j ≠ id → s'.wastes j = s.wastes j) ∧
      s'.wastes id = { s.wastes id with owner := toAddr }) ∧
    (∀ s ty sender now s' e, createWaste s ty sender now = Except.ok (s', e) →
      ∀ j, j ≠ s.count + 1 → s'.wastes j = s.wastes j) ∧
    (∀ ops s i, i ≤ s.count →
      ((run s ops).1.wastes i).id = (s.wastes i).id ∧
      ((run s ops).1.wastes i).wasteType = (s.wastes i).wasteType ∧
      ((run s ops).1.wastes i).timestamp = (s.wastes i).timestamp ∧
      s.count ≤ (run s ops).1.count) := by
  refine ⟨?_, ?_, ?_, fun ops s i hi => fields_run ops s i hi⟩
  · intro s id st sender s' e h
    obtain ⟨-, -, hs', -⟩ := updateStatus_ok s id st sender s' e h
    subst hs'
    exact ⟨rfl, fun j hj => by simp [hj], by simp⟩
  · intro s id toAddr sender s' e h
    obtain ⟨-, hs', -⟩ := transferWaste_ok s id toAddr sender s' e h
    subst hs'
    exact ⟨rfl, fun j hj => by simp [hj], by simp⟩
  · intro s ty sender now s' e h
    obtain ⟨-, hs', -⟩ := createWaste_ok s ty sender now s' e h
    subst hs'
    intro j hj
    simp [hj]

/-- Claim C9, witness: after a status update on record 1, its `id`,
`wasteType` and `timestamp` fields are those it was created with. -/
theorem c9_frame_conditions_witness :
    (((run (reach [Op.create "Plastic" 1 100]) [Op.update 1 "Collected" 1]).1.wastes
        1).id = ((reach [Op.create "Plastic" 1 100]).wastes 1).id ∧
    ((run (reach [Op.create "Plastic" 1 100]) [Op.update 1 "Collected" 1]).1.wastes
        1).wasteType = ((reach [Op.create "Plastic" 1 100]).wastes 1).wasteType ∧
    ((run (reach [Op.create "Plastic" 1 100]) [Op.update 1 "Collected" 1]).1.wastes
        1).timestamp = ((reach [Op.create "Plastic" 1 100]).wastes 1).timestamp ∧
    (reach [Op.create "Plastic" 1 100]).count ≤
      (run (reach [Op.create "Plastic" 1 100]) [Op.update 1 "Collected" 1]).1.count) :=
  c9_frame_conditions.2.2.2 [Op.update 1 "Collected" 1]
    (reach [Op.create "Plastic" 1 100]) 1 (by decide)

/-- Claim C10. In every state reachable from the fresh store by contract
calls (with EVM-valid nonzero senders), the record at key `i` has
`id = i` for every `1 ≤ i ≤ count`, every key outside `1..count` reads the
all-zero struct, and so the existence test `wastes[id].id != 0` used by
`updateStatus` holds exactly when `1 ≤ id ≤ count`. -/
theorem c10_store_invariant (ops : List Op) (hs : SendersOk ops) :
    (∀ i, 1 ≤ i → i ≤ (reach ops).count → ((reach ops).wastes i).id = i) ∧
    (∀ i, i = 0 ∨ (reach ops).count < i → (reach ops).wastes i = zeroWaste) ∧
    (∀ id, ((reach ops).wastes id).id ≠ 0 ↔
      1 ≤ id ∧ id ≤ (reach ops).count) := by
  obtain ⟨h1, h2⟩ := inv_reach ops hs
  refine ⟨h1, h2, fun id => ?_⟩
  constructor
  · intro hz
    by_contra hcon
    have hor : id = 0 ∨ (reach ops).count < id := by omega
    rw [h2 id hor] at hz
    exact hz rfl
  · intro hab
    rw [h1 id hab.1 hab.2]
    omega

/-- Claim C10, witness: after one creation, the existence test for id 1 is
equivalent to `1 ≤ 1 ≤ count`. -/
theorem c10_store_invariant_witness :
    ((reach [Op.create "Plastic" 1 100]).wastes 1).id ≠ 0 ↔
      1 ≤ 1 ∧ 1 ≤ (reach [Op.create "Plastic" 1 100]).count :=
  (c10_store_invariant [Op.create "Plastic" 1 100] (by decide)).2.2 1

end WasteTrace

namespace Frontend

lemma onEvents_cons (acc : String) (e : DetectionEvent)
    (es : List DetectionEvent) :
    onDetectionEvents true acc (e :: es) =
      (if recognizedEvent e then
        handleAutoCreateWaste acc (wasteTypeOf e.class_name) else []) ++
      onDetectionEvents true acc es := by
  simp [onDetectionEvents]

lemma onEvents_noAccount (autoLog : Bool) (events : List DetectionEvent) :
    onDetectionEvents autoLog "" events = [] := by
  cases autoLog with
  | false => simp [onDetectionEvents]
  | true =>
    induction events with
    | nil => simp [onDetectionEvents]
    | cons e es ih =>
      rw [onEvents_cons, ih]
      simp [handleAutoCreateWaste]

lemma onEvents_true (acc : String) (events : List DetectionEvent)
    (ha : acc ≠ "") :
    onDetectionEvents true acc events =
      (events.filter recognizedEvent).map fun e => wasteTypeOf e.class_name := by
  induction events with
  | nil => simp [onDetectionEvents]
  | cons e es ih =>
    rw [onEvents_cons, ih]
    cases hrec : recognizedEvent e with
    | true => simp [List.filter_cons, hrec, handleAutoCreateWaste, ha]
    | false => simp [List.filter_cons, hrec]

/-- Claim C6. The auto-write bridge issues a ledger create call if and only
if the toggle is on, an account is bound (`currentAccount ≠ ""`) and the
event's tag is one of the recognized pair
`waste_detected` / `waste_classified` (the spec's "detected"/"classified");
exactly one call per such event, in event order, with no deduplication;
the item type is the event's class name, falling back to the fixed
`"Unknown Waste"` label when it is absent (or empty, which the JS guard
treats as falsy); in every other case nothing is issued. -/
theorem c6_bridge_filter :
    (∀ autoLog currentAccount events,
      onDetectionEvents autoLog currentAccount events =
        if autoLog = true ∧ currentAccount ≠ "" then
          (events.filter recognizedEvent).map fun e => wasteTypeOf e.class_name
        else []) ∧
    (∀ e, recognizedEvent e = true ↔
      e.event_type = "waste_detected" ∨ e.event_type = "waste_classified") ∧
    wasteTypeOf none = "Unknown Waste" ∧
    wasteTypeOf (some "") = "Unknown Waste" := by
  refine ⟨?_, ?_, rfl, rfl⟩
  · intro autoLog acc events
    cases autoLog with
    | false => simp [onDetectionEvents]
    | true =>
      by_cases ha : acc = ""
      · subst ha
        rw [onEvents_noAccount]
        simp
      · rw [if_pos ⟨rfl, ha⟩]
        exact onEvents_true acc events ha
  · intro e
    simp [recognizedEvent]

/-- Claim C7, counterexample. With no identity bound (`contract` handle
null), the frontend `createWaste` issues no store call — but it also
throws no error: it completes silently (returns `undefined`), refuting the
claim that such a call fails with an `Unauthorized`/"no identity" error. -/
theorem c7_no_identity_error_cex :
    (web3CreateWaste none "Plastic").storeCalls = [] ∧
    (web3CreateWaste none "Plastic").threwError = false :=
  ⟨rfl, rfl⟩

/-- Claim C7, amended. A mutating frontend call made while no identity is
bound never reaches the store, but it completes as a silent no-op
(`if (!contract) return;`) rather than failing with an
`Unauthorized`/"no identity" error; with a bound handle the call is
issued. -/
theorem c7_no_identity_silent_noop (wasteType : String) :
    web3CreateWaste none wasteType = ⟨[], false⟩ ∧
    web3CreateWaste (some ()) wasteType = ⟨[wasteType], false⟩ :=
  ⟨rfl, rfl⟩

end Frontend
